import Mathlib

/-!
Verification of the command execution and risk-supervision subsystem of the
code-agent repository (TerminalManager, CommandResolver).

Strings are embedded as `List Char`.  JavaScript regular-expression tests used
by the source are embedded as executable matcher combinators: a matcher
`m : List Char → Bool` decides whether the pattern matches at the current
position, and `testFrom m` scans every position (`RegExp.test` semantics).
-/

abbrev Str := List Char

/-- JS whitespace class `\s` (the members relevant to this code base). -/
def isWsChar (c : Char) : Bool :=
  c = ' ' || c = '\t' || c = '\n' || c = '\r' || c = '\x0b' || c = '\x0c' ||
  c = '\u00A0' || c = '\uFEFF'

/-- JS `.` character class: any character except line terminators. -/
def isDotChar (c : Char) : Bool :=
  !(c = '\n' || c = '\r' || c = '\u2028' || c = '\u2029')

/-- JS `\w` character class. -/
def isWordChar (c : Char) : Bool :=
  c.isAlphanum || c = '_'

/-- `String.prototype.toLowerCase` (ASCII range, all that the source patterns use). -/
def lowerList (s : Str) : Str := s.map Char.toLower

/-- `String.prototype.trim`: drop whitespace at both ends. -/
def trimJS (s : Str) : Str :=
  ((s.dropWhile isWsChar).reverse.dropWhile isWsChar).reverse

/-- Strip an exact leading literal, returning the remainder. -/
def dropPref : Str → Str → Option Str
  | [], s => some s
  | _ :: _, [] => none
  | c :: p, d :: s => if c = d then dropPref p s else none

/-- Match a literal, then continue with `k` (case sensitive). -/
def litThen (w : Str) (k : Str → Bool) (s : Str) : Bool :=
  match dropPref w s with
  | some r => k r
  | none => false

/-- The empty continuation: the pattern has been fully matched. -/
def epsTrue : Str → Bool := fun _ => true

/-- `\s+` then `k` (with backtracking over the number of whitespace chars). -/
def wsPlusThen (k : Str → Bool) : Str → Bool
  | [] => false
  | c :: cs => isWsChar c && (k cs || wsPlusThen k cs)

/-- `\s*` then `k`. -/
def wsStarThen (k : Str → Bool) : Str → Bool
  | [] => k []
  | c :: cs => k (c :: cs) || (isWsChar c && wsStarThen k cs)

/-- `.*` then `k`. -/
def dotStarThen (k : Str → Bool) : Str → Bool
  | [] => k []
  | c :: cs => k (c :: cs) || (isDotChar c && dotStarThen k cs)

/-- `RegExp.test`: does the matcher fire at some position of the string? -/
def testFrom (m : Str → Bool) : Str → Bool
  | [] => m []
  | c :: cs => m (c :: cs) || testFrom m cs

/-- Literal substring test (a regex that is a plain literal). -/
def containsSub (p s : Str) : Bool := testFrom (litThen p epsTrue) s

/-! ## RiskClassifier (`TerminalManager.assessCommandRisk`) -/

inductive CommandRiskLevel where
  | SAFE
  | MODERATE
  | DANGEROUS
deriving DecidableEq

/-- The dangerous pattern set, in source order:
`rm\s+-rf`, `rm\s+-fr`, `sudo`, `chmod\s+777`, `shutdown`, `reboot`, `mkfs`,
`dd\s+if=`, `:\(\)\{` (fork bomb), `>\/dev\/sd`, `curl.*\|.*sh`, `wget.*\|.*sh`. -/
def dangerousHit (cmd : Str) : Bool :=
  testFrom (litThen ("rm".data) (wsPlusThen (litThen ("-rf".data) epsTrue))) cmd ||
  testFrom (litThen ("rm".data) (wsPlusThen (litThen ("-fr".data) epsTrue))) cmd ||
  containsSub ("sudo".data) cmd ||
  testFrom (litThen ("chmod".data) (wsPlusThen (litThen ("777".data) epsTrue))) cmd ||
  containsSub ("shutdown".data) cmd ||
  containsSub ("reboot".data) cmd ||
  containsSub ("mkfs".data) cmd ||
  testFrom (litThen ("dd".data) (wsPlusThen (litThen ("if=".data) epsTrue))) cmd ||
  containsSub (":()\x7b".data) cmd ||
  containsSub (">/dev/sd".data) cmd ||
  testFrom (litThen ("curl".data)
    (dotStarThen (litThen ("|".data) (dotStarThen (litThen ("sh".data) epsTrue))))) cmd ||
  testFrom (litThen ("wget".data)
    (dotStarThen (litThen ("|".data) (dotStarThen (litThen ("sh".data) epsTrue))))) cmd

/-- The moderate pattern set, in source order:
`rm\s+`, `git\s+push`, `git\s+reset`, `npm\s+install`, `yarn\s+install`,
`pip\s+install`, `apt-get\s+install`, `brew\s+install`, `chmod`, `chown`. -/
def moderateHit (cmd : Str) : Bool :=
  testFrom (litThen ("rm".data) (wsPlusThen epsTrue)) cmd ||
  testFrom (litThen ("git".data) (wsPlusThen (litThen ("push".data) epsTrue))) cmd ||
  testFrom (litThen ("git".data) (wsPlusThen (litThen ("reset".data) epsTrue))) cmd ||
  testFrom (litThen ("npm".data) (wsPlusThen (litThen ("install".data) epsTrue))) cmd ||
  testFrom (litThen ("yarn".data) (wsPlusThen (litThen ("install".data) epsTrue))) cmd ||
  testFrom (litThen ("pip".data) (wsPlusThen (litThen ("install".data) epsTrue))) cmd ||
  testFrom (litThen ("apt-get".data) (wsPlusThen (litThen ("install".data) epsTrue))) cmd ||
  testFrom (litThen ("brew".data) (wsPlusThen (litThen ("install".data) epsTrue))) cmd ||
  containsSub ("chmod".data) cmd ||
  containsSub ("chown".data) cmd

/-- `TerminalManager.assessCommandRisk`: lowercase + trim the command, then
check the dangerous set first (short-circuit), then the moderate set. -/
def assessCommandRisk (command : Str) : CommandRiskLevel :=
  let cmd := trimJS (lowerList command)
  if dangerousHit cmd then CommandRiskLevel.DANGEROUS
  else if moderateHit cmd then CommandRiskLevel.MODERATE
  else CommandRiskLevel.SAFE

/-! ## Lemmas about the matcher combinators -/

theorem dropPref_self (p s : Str) : dropPref p (p ++ s) = some s := by
  induction p with
  | nil => rfl
  | cons c p ih => simp [dropPref, ih]

theorem testFrom_of_here {m : Str → Bool} (x u : Str) (h : m u = true) :
    testFrom m (x ++ u) = true := by
  induction x with
  | nil =>
    cases u with
    | nil => simpa [testFrom] using h
    | cons c cs => simp [testFrom, h]
  | cons c cs ih => simp [testFrom, ih]

theorem litThen_here (w : Str) (k : Str → Bool) (s : Str) (h : k s = true) :
    litThen w k (w ++ s) = true := by
  simp [litThen, dropPref_self, h]

theorem lws_here (a b y : Str) :
    litThen a (wsPlusThen (litThen b epsTrue)) (a ++ (' ' :: (b ++ y))) = true := by
  simp [litThen, dropPref_self, wsPlusThen, isWsChar, epsTrue]

theorem infix_dropWhileWs {c : Char} {p' s : Str} (hc : isWsChar c = false)
    (h : (c :: p') <:+: s) : (c :: p') <:+: (s.dropWhile isWsChar) := by
  obtain ⟨x, y, hxy⟩ := h
  subst hxy
  induction x with
  | nil =>
    refine ⟨[], y, ?_⟩
    simp [List.dropWhile_cons, hc]
  | cons a x ih =>
    by_cases ha : isWsChar a = true
    · simpa [List.dropWhile_cons, ha] using ih
    · refine ⟨a :: x, y, ?_⟩
      simp only [Bool.not_eq_true] at ha
      simp [List.dropWhile_cons, ha]

theorem infix_trimJS {p s : Str} {c d : Char}
    (hc : p.head? = some c) (hd : p.getLast? = some d)
    (h1 : isWsChar c = false) (h2 : isWsChar d = false)
    (h : p <:+: s) : p <:+: trimJS s := by
  cases p with
  | nil => simp at hc
  | cons c0 p' =>
    have h1' : isWsChar c0 = false := by
      have hc0 : c0 = c := by simpa using hc
      rw [hc0]; exact h1
    have step1 : (c0 :: p') <:+: (s.dropWhile isWsChar) := infix_dropWhileWs h1' h
    have hrev : (c0 :: p').reverse <:+: (s.dropWhile isWsChar).reverse :=
      List.reverse_infix.mpr step1
    have hne : (c0 :: p').reverse ≠ [] := by simp
    obtain ⟨d0, q, hq⟩ := List.exists_cons_of_ne_nil hne
    have hd0 : d0 = d := by
      have hh : (c0 :: p').reverse.head? = some d0 := by rw [hq]; rfl
      rw [List.head?_reverse, hd] at hh
      exact (Option.some_inj.mp hh).symm
    have hrev' : (d0 :: q) <:+: (s.dropWhile isWsChar).reverse := hq ▸ hrev
    have step2 : (d0 :: q) <:+: ((s.dropWhile isWsChar).reverse.dropWhile isWsChar) :=
      infix_dropWhileWs (by rw [hd0]; exact h2) hrev'
    have step2' : (c0 :: p').reverse <:+:
        ((s.dropWhile isWsChar).reverse.dropWhile isWsChar) := by rw [hq]; exact step2
    have fin : (c0 :: p').reverse.reverse <:+:
        ((s.dropWhile isWsChar).reverse.dropWhile isWsChar).reverse :=
      List.reverse_infix.mpr step2'
    simpa [trimJS] using fin

/-! ## C9 -/

/-- C9: the risk classifier is a pure function of the literal command string that
checks the Dangerous set before the Moderate set and short-circuits (so a
dangerous hit yields `DANGEROUS` no matter what the moderate set says); and any
command containing `rm -rf`, `sudo`, or `dd if=` — irrespective of surrounding
text, casing (the hypothesis is stated on the lowercased text), or whitespace —
is classified `DANGEROUS`. -/
theorem c9_dangerous_classification :
    (∀ s : Str, dangerousHit (trimJS (lowerList s)) = true →
      assessCommandRisk s = CommandRiskLevel.DANGEROUS) ∧
    (∀ s : Str,
      (("rm -rf".data) <:+: lowerList s ∨ ("sudo".data) <:+: lowerList s ∨
        ("dd if=".data) <:+: lowerList s) →
      assessCommandRisk s = CommandRiskLevel.DANGEROUS) := by
  have key : ∀ s : Str, dangerousHit (trimJS (lowerList s)) = true →
      assessCommandRisk s = CommandRiskLevel.DANGEROUS := by
    intro s hs
    simp [assessCommandRisk, hs]
  refine ⟨key, ?_⟩
  intro s h
  apply key
  rcases h with h | h | h
  · have h' : ("rm -rf".data) <:+: trimJS (lowerList s) :=
      infix_trimJS (c := 'r') (d := 'f') rfl rfl (by decide) (by decide) h
    obtain ⟨x, y, hxy⟩ := h'
    have hm : testFrom (litThen ("rm".data) (wsPlusThen (litThen ("-rf".data) epsTrue)))
        (trimJS (lowerList s)) = true := by
      rw [← hxy, List.append_assoc]
      exact testFrom_of_here x _ (lws_here ("rm".data) ("-rf".data) y)
    simp [dangerousHit, hm]
  · have h' : ("sudo".data) <:+: trimJS (lowerList s) :=
      infix_trimJS (c := 's') (d := 'o') rfl rfl (by decide) (by decide) h
    obtain ⟨x, y, hxy⟩ := h'
    have hm : containsSub ("sudo".data) (trimJS (lowerList s)) = true := by
      rw [← hxy, List.append_assoc]
      exact testFrom_of_here x _ (litThen_here ("sudo".data) epsTrue y rfl)
    simp [dangerousHit, hm]
  · have h' : ("dd if=".data) <:+: trimJS (lowerList s) :=
      infix_trimJS (c := 'd') (d := '=') rfl rfl (by decide) (by decide) h
    obtain ⟨x, y, hxy⟩ := h'
    have hm : testFrom (litThen ("dd".data) (wsPlusThen (litThen ("if=".data) epsTrue)))
        (trimJS (lowerList s)) = true := by
      rw [← hxy, List.append_assoc]
      exact testFrom_of_here x _ (lws_here ("dd".data) ("if=".data) y)
    simp [dangerousHit, hm]

/-- C9 witness: a concrete command containing `SUDO` amid other text is
classified `DANGEROUS`. -/
theorem c9_dangerous_classification_wit :
    assessCommandRisk (("echo hi; SUDO apt upgrade".data)) = CommandRiskLevel.DANGEROUS :=
  c9_dangerous_classification.2 (("echo hi; SUDO apt upgrade".data))
    (Or.inr (Or.inl (by decide)))

/-! ## CommandResolver: capture machinery

JS `String.prototype.match` with an `/i` regex is embedded in continuation
style: combinators consume the input and pass the remainder (and captured
groups) on; alternation and quantifiers backtrack in the same priority order
as the JS regex engine (leftmost position, alternatives in source order,
greedy or lazy repetition as written). -/

/-- Case-insensitive literal strip (the `/i` flag). -/
def dropPrefCI : Str → Str → Option Str
  | [], s => some s
  | _ :: _, [] => none
  | c :: p, d :: s => if c.toLower = d.toLower then dropPrefCI p s else none

/-- Case-insensitive literal containment (`/lit/i.test`). -/
def litThenCI (w : Str) (k : Str → Bool) (s : Str) : Bool :=
  match dropPrefCI w s with
  | some r => k r
  | none => false

def containsSubCI (p s : Str) : Bool := testFrom (litThenCI p epsTrue) s

/-- Scan with the previous character available, for `\b` word boundaries. -/
def testFromB (m : Option Char → Str → Bool) : Option Char → Str → Bool
  | prev, [] => m prev []
  | prev, c :: cs => m prev (c :: cs) || testFromB m (some c) cs

/-- `\b` holds before a word character when the previous char is not one. -/
def nonWordB (prev : Option Char) : Bool :=
  match prev with
  | some c => !isWordChar c
  | none => true

/-- `\b` holds after a word character when the next char is absent or not one. -/
def boundaryEnd (s : Str) : Bool :=
  match s with
  | [] => true
  | c :: _ => !isWordChar c

/-- Try capture lengths `n, n-1, …, 1` (greedy `(.+)` with backtracking). -/
def tryLens {α : Type} (k : Str → Str → Option α) (s : Str) : Nat → Option α
  | 0 => none
  | n + 1 =>
    match k (s.take (n + 1)) (s.drop (n + 1)) with
    | some v => some v
    | none => tryLens k s n

/-- Greedy one-or-more capture of `p`-characters, then `k capture rest`. -/
def capPlusGreedy {α : Type} (p : Char → Bool) (k : Str → Str → Option α) (s : Str) :
    Option α :=
  tryLens k s ((s.takeWhile p).length)

/-- Try capture lengths `i, i+1, …` while fuel lasts (lazy `(.+?)`). -/
def tryLensUp {α : Type} (k : Str → Str → Option α) (s : Str) : Nat → Nat → Option α
  | _, 0 => none
  | i, n + 1 =>
    match k (s.take i) (s.drop i) with
    | some v => some v
    | none => tryLensUp k s (i + 1) n

/-- Lazy one-or-more capture of `p`-characters, then `k capture rest`. -/
def capPlusLazy {α : Type} (p : Char → Bool) (k : Str → Str → Option α) (s : Str) :
    Option α :=
  tryLensUp k s 1 ((s.takeWhile p).length)

/-- Case-insensitive literal, continuation style. -/
def litCI {α : Type} (w : Str) (k : Str → Option α) (s : Str) : Option α :=
  match dropPrefCI w s with
  | some r => k r
  | none => none

/-- Ordered alternation over literals (`(?:a|b|c)`), with full backtracking. -/
def altCI {α : Type} (ws : List Str) (k : Str → Option α) (s : Str) : Option α :=
  match ws with
  | [] => none
  | w :: rest =>
    match litCI w k s with
    | some v => some v
    | none => altCI rest k s

/-- `\s+` (greedy, with backtracking), continuation style. -/
def wsPlusCPS {α : Type} (k : Str → Option α) (s : Str) : Option α :=
  capPlusGreedy isWsChar (fun _ rest => k rest) s

/-- Greedy optional group `(?:…)?`: try with the group, then without. -/
def optCPS {α : Type} (m : (Str → Option α) → Str → Option α) (k : Str → Option α)
    (s : Str) : Option α :=
  match m k s with
  | some v => some v
  | none => k s

/-- Greedy optional single character from a class (`["']?`). -/
def optClsCPS {α : Type} (p : Char → Bool) (k : Str → Option α) (s : Str) : Option α :=
  match s with
  | [] => k []
  | c :: cs =>
    if p c then
      match k cs with
      | some v => some v
      | none => k (c :: cs)
    else k (c :: cs)

/-- Leftmost match: try the matcher at each successive position. -/
def scanFirst {α : Type} (m : Str → Option α) : Str → Option α
  | [] => m []
  | c :: cs =>
    match m (c :: cs) with
    | some v => some v
    | none => scanFirst m cs

def isQuoteChar (c : Char) : Bool := c = '"' || c = Char.ofNat 39

/-- `.replace(/^["']|["']$/g, "")`: drop one leading and one trailing quote. -/
def stripEdgeQuotes (s : Str) : Str :=
  let s1 := match s with
    | c :: cs => if isQuoteChar c then cs else c :: cs
    | [] => []
  match s1.reverse with
  | c :: cs => if isQuoteChar c then cs.reverse else s1
  | [] => s1

/-! ## CommandResolver: intent predicates

Each mirrors one regex test in `CommandResolver`; all of them are applied to
the lowercased, trimmed input, so the patterns are matched case-sensitively. -/

def altThen (ws : List Str) (k : Str → Bool) (s : Str) : Bool :=
  ws.any (fun w => litThen w k s)

/-- `/(?:read|show|display|cat|view)\s+(?:file|content)/` -/
def isReadFileIntentFn (s : Str) : Bool :=
  testFrom (altThen [("read".data), ("show".data), ("display".data), ("cat".data),
    ("view".data)] (wsPlusThen (altThen [("file".data), ("content".data)] epsTrue))) s

/-- `/create\s+(?:file|new\s+file)/ && !/folder/` -/
def isCreateFileIntentFn (s : Str) : Bool :=
  testFrom (litThen ("create".data) (wsPlusThen (fun r =>
    litThen ("file".data) epsTrue r ||
    litThen ("new".data) (wsPlusThen (litThen ("file".data) epsTrue)) r))) s &&
  !(containsSub ("folder".data) s)

/-- `/edit\s+(?:file|content)|replace\s+in\s+file/` -/
def isEditFileIntentFn (s : Str) : Bool :=
  testFrom (litThen ("edit".data)
    (wsPlusThen (altThen [("file".data), ("content".data)] epsTrue))) s ||
  testFrom (litThen ("replace".data)
    (wsPlusThen (litThen ("in".data) (wsPlusThen (litThen ("file".data) epsTrue))))) s

/-- `/(?:delete|remove|rm)\s+(?:file|the\s+file)/` -/
def isDeleteFileIntentFn (s : Str) : Bool :=
  testFrom (altThen [("delete".data), ("remove".data), ("rm".data)]
    (wsPlusThen (fun r =>
      litThen ("file".data) epsTrue r ||
      litThen ("the".data) (wsPlusThen (litThen ("file".data) epsTrue)) r))) s

/-- `/(?:delete|remove|rm)\s+(?:folder|directory|dir)/` -/
def isDeleteFolderIntentFn (s : Str) : Bool :=
  testFrom (altThen [("delete".data), ("remove".data), ("rm".data)]
    (wsPlusThen (altThen [("folder".data), ("directory".data), ("dir".data)] epsTrue))) s

/-- `/(?:move|mv|rename)\s+/` -/
def isMoveFileIntentFn (s : Str) : Bool :=
  testFrom (altThen [("move".data), ("mv".data), ("rename".data)] (wsPlusThen epsTrue)) s

/-- `/(?:copy|cp)\s+/` -/
def isCopyFileIntentFn (s : Str) : Bool :=
  testFrom (altThen [("copy".data), ("cp".data)] (wsPlusThen epsTrue)) s

/-- `/(?:search|grep)\s+(?:for|in)|find\s+files/` -/
def isSearchFileIntentFn (s : Str) : Bool :=
  testFrom (altThen [("search".data), ("grep".data)]
    (wsPlusThen (altThen [("for".data), ("in".data)] epsTrue))) s ||
  testFrom (litThen ("find".data) (wsPlusThen (litThen ("files".data) epsTrue))) s

/-- `/(?:list|ls|show)\s+files/` -/
def isListFilesIntentFn (s : Str) : Bool :=
  testFrom (altThen [("list".data), ("ls".data), ("show".data)]
    (wsPlusThen (litThen ("files".data) epsTrue))) s

/-- `/install|dependencies|deps/` -/
def isInstallIntentFn (s : Str) : Bool :=
  containsSub ("install".data) s || containsSub ("dependencies".data) s ||
  containsSub ("deps".data) s

/-- `/build|compile/` -/
def isBuildIntentFn (s : Str) : Bool :=
  containsSub ("build".data) s || containsSub ("compile".data) s

/-- `/dev|start|serve|development|server/` -/
def isDevIntentFn (s : Str) : Bool :=
  containsSub ("dev".data) s || containsSub ("start".data) s ||
  containsSub ("serve".data) s || containsSub ("development".data) s ||
  containsSub ("server".data) s

/-- `/test|spec/` -/
def isTestIntentFn (s : Str) : Bool :=
  containsSub ("test".data) s || containsSub ("spec".data) s

/-- `/(?:run|execute|start)\s+\w+/` -/
def isScriptIntentFn (s : Str) : Bool :=
  testFrom (altThen [("run".data), ("execute".data), ("start".data)]
    (wsPlusThen (fun r =>
      match r with
      | c :: _ => isWordChar c
      | [] => false))) s

/-- `/create|generate|scaffold|new\s+project/` -/
def isScaffoldIntentFn (s : Str) : Bool :=
  containsSub ("create".data) s || containsSub ("generate".data) s ||
  containsSub ("scaffold".data) s ||
  testFrom (litThen ("new".data) (wsPlusThen (litThen ("project".data) epsTrue))) s

/-! ## CommandResolver: capture matchers (applied to the raw input, `/i`) -/

/-- `/(?:delete|remove|rm)\s+(?:file\s+)?(.+)/i` -/
def deleteFileArg (input : Str) : Option Str :=
  scanFirst (altCI [("delete".data), ("remove".data), ("rm".data)]
    (wsPlusCPS (optCPS (fun k => litCI ("file".data) (wsPlusCPS k))
      (capPlusGreedy isDotChar (fun cap _ => some cap))))) input

/-- `/(?:delete|remove|rm)\s+(?:folder|directory|dir)\s+(.+)/i` -/
def deleteFolderArg (input : Str) : Option Str :=
  scanFirst (altCI [("delete".data), ("remove".data), ("rm".data)]
    (wsPlusCPS (altCI [("folder".data), ("directory".data), ("dir".data)]
      (wsPlusCPS (capPlusGreedy isDotChar (fun cap _ => some cap)))))) input

/-- `/(?:read|show|display|cat|view)\s+(?:file\s+)?(.+)/i` -/
def readFileArg (input : Str) : Option Str :=
  scanFirst (altCI [("read".data), ("show".data), ("display".data), ("cat".data),
    ("view".data)]
    (wsPlusCPS (optCPS (fun k => litCI ("file".data) (wsPlusCPS k))
      (capPlusGreedy isDotChar (fun cap _ => some cap))))) input

/-- `/create\s+(?:file\s+)?(.+?)\s+(?:with\s+)?(?:content\s+)?(.+)/i` -/
def createFileTwoArgs (input : Str) : Option (Str × Str) :=
  scanFirst (litCI ("create".data)
    (wsPlusCPS (optCPS (fun k => litCI ("file".data) (wsPlusCPS k))
      (capPlusLazy isDotChar (fun cap1 =>
        wsPlusCPS (optCPS (fun k => litCI ("with".data) (wsPlusCPS k))
          (optCPS (fun k => litCI ("content".data) (wsPlusCPS k))
            (capPlusGreedy isDotChar (fun cap2 _ => some (cap1, cap2)))))))))) input

/-- `/create\s+(?:file\s+)?(.+)/i` -/
def createFileOneArg (input : Str) : Option Str :=
  scanFirst (litCI ("create".data)
    (wsPlusCPS (optCPS (fun k => litCI ("file".data) (wsPlusCPS k))
      (capPlusGreedy isDotChar (fun cap _ => some cap))))) input

/-- `/edit\s+(?:file\s+)?(.+?)\s+replace\s+(.+?)\s+with\s+(.+)/i` -/
def editFileThreeArgs (input : Str) : Option (Str × Str × Str) :=
  scanFirst (litCI ("edit".data)
    (wsPlusCPS (optCPS (fun k => litCI ("file".data) (wsPlusCPS k))
      (capPlusLazy isDotChar (fun cap1 =>
        wsPlusCPS (litCI ("replace".data) (wsPlusCPS
          (capPlusLazy isDotChar (fun cap2 =>
            wsPlusCPS (litCI ("with".data) (wsPlusCPS
              (capPlusGreedy isDotChar (fun cap3 _ => some (cap1, cap2, cap3)))))))))))))) input

/-- `/edit\s+(?:file\s+)?(.+)/i` -/
def editFileOneArg (input : Str) : Option Str :=
  scanFirst (litCI ("edit".data)
    (wsPlusCPS (optCPS (fun k => litCI ("file".data) (wsPlusCPS k))
      (capPlusGreedy isDotChar (fun cap _ => some cap))))) input

/-- `/(?:move|mv|rename)\s+(.+?)\s+(?:to\s+)?(.+)/i` -/
def moveTwoArgs (input : Str) : Option (Str × Str) :=
  scanFirst (altCI [("move".data), ("mv".data), ("rename".data)]
    (wsPlusCPS (capPlusLazy isDotChar (fun cap1 =>
      wsPlusCPS (optCPS (fun k => litCI ("to".data) (wsPlusCPS k))
        (capPlusGreedy isDotChar (fun cap2 _ => some (cap1, cap2)))))))) input

/-- `/(?:copy|cp)\s+(.+?)\s+(?:to\s+)?(.+)/i` -/
def copyTwoArgs (input : Str) : Option (Str × Str) :=
  scanFirst (altCI [("copy".data), ("cp".data)]
    (wsPlusCPS (capPlusLazy isDotChar (fun cap1 =>
      wsPlusCPS (optCPS (fun k => litCI ("to".data) (wsPlusCPS k))
        (capPlusGreedy isDotChar (fun cap2 _ => some (cap1, cap2)))))))) input

/-- `/(?:search|grep|find)\s+(?:for\s+)?["']?(.+?)["']?\s+in\s+(.+)/i` -/
def searchTwoArgs (input : Str) : Option (Str × Str) :=
  scanFirst (altCI [("search".data), ("grep".data), ("find".data)]
    (wsPlusCPS (optCPS (fun k => litCI ("for".data) (wsPlusCPS k))
      (optClsCPS isQuoteChar
        (capPlusLazy isDotChar (fun cap1 =>
          optClsCPS isQuoteChar
            (wsPlusCPS (litCI ("in".data) (wsPlusCPS
              (capPlusGreedy isDotChar (fun cap2 _ => some (cap1, cap2)))))))))))) input

/-- `/find\s+files?\s+(?:named|called)\s+(.+)/i` -/
def findNamedArg (input : Str) : Option Str :=
  scanFirst (litCI ("find".data)
    (wsPlusCPS (litCI ("file".data)
      (optCPS (fun k => litCI ("s".data) k)
        (wsPlusCPS (altCI [("named".data), ("called".data)]
          (wsPlusCPS (capPlusGreedy isDotChar (fun cap _ => some cap))))))))) input

/-- `/(?:list|ls|show)\s+(?:files\s+in\s+)?(.+)/i` -/
def listFilesArg (input : Str) : Option Str :=
  scanFirst (altCI [("list".data), ("ls".data), ("show".data)]
    (wsPlusCPS (optCPS (fun k =>
        litCI ("files".data) (wsPlusCPS (litCI ("in".data) (wsPlusCPS k))))
      (capPlusGreedy isDotChar (fun cap _ => some cap))))) input

/-- `/(?:create folder|mkdir)\s+(.+)/i` -/
def mkdirArg (input : Str) : Option Str :=
  scanFirst (altCI [("create folder".data), ("mkdir".data)]
    (wsPlusCPS (capPlusGreedy isDotChar (fun cap _ => some cap)))) input

/-- `/(?:create file|touch)\s+(.+)/i` -/
def touchArg (input : Str) : Option Str :=
  scanFirst (altCI [("create file".data), ("touch".data)]
    (wsPlusCPS (capPlusGreedy isDotChar (fun cap _ => some cap)))) input

/-- `/(?:run|execute|start)\s+(\w+)/i` -/
def scriptNameArg (input : Str) : Option Str :=
  scanFirst (altCI [("run".data), ("execute".data), ("start".data)]
    (wsPlusCPS (capPlusGreedy isWordChar (fun cap _ => some cap)))) input

/-- `CommandResolver.isDangerousCommand`: the nine `/i` patterns, in source
order: `\brm\b.*-rf`, `\brm\b.*-fr`, `\bdel\b`, `\bformat\b`,
`\bdrop\s+database`, `\btruncate\b`, `sudo`, `>\s*\/dev\//`, `dd\s+if=`. -/
def isDangerousCommandFn (command : Str) : Bool :=
  testFromB (fun prev s => nonWordB prev && litThenCI ("rm".data)
    (fun r => boundaryEnd r && dotStarThen (litThenCI ("-rf".data) epsTrue) r) s)
    none command ||
  testFromB (fun prev s => nonWordB prev && litThenCI ("rm".data)
    (fun r => boundaryEnd r && dotStarThen (litThenCI ("-fr".data) epsTrue) r) s)
    none command ||
  testFromB (fun prev s => nonWordB prev && litThenCI ("del".data) boundaryEnd s)
    none command ||
  testFromB (fun prev s => nonWordB prev && litThenCI ("format".data) boundaryEnd s)
    none command ||
  testFromB (fun prev s => nonWordB prev && litThenCI ("drop".data)
    (wsPlusThen (litThenCI ("database".data) epsTrue)) s) none command ||
  testFromB (fun prev s => nonWordB prev && litThenCI ("truncate".data) boundaryEnd s)
    none command ||
  containsSubCI ("sudo".data) command ||
  testFrom (litThenCI (">".data) (wsStarThen (litThenCI ("/dev/".data) epsTrue))) command ||
  testFrom (litThenCI ("dd".data) (wsPlusThen (litThenCI ("if=".data) epsTrue))) command

/-! ## CommandResolver: resolvers -/

structure ResolvedCommand where
  command : Str
  description : Option Str
  isDangerous : Bool
  requiresConfirmation : Bool
deriving DecidableEq

structure StackInfo where
  primary : Str
  packageManager : Option Str
deriving DecidableEq

/-- The project-context probes consulted by the resolver, passed in as data:
the detected stack, the script maps read from `package.json`,
`pyproject.toml` and `composer.json`, and whether `manage.py` exists. -/
structure ProjectEnv where
  stack : StackInfo
  packageScripts : List (Str × Str)
  pythonScripts : List (Str × Str)
  composerScripts : List (Str × Str)
  hasManagePy : Bool

def lookupScript (key : Str) : List (Str × Str) → Option Str
  | [] => none
  | (k, v) :: rest => if k = key then some v else lookupScript key rest

def squoteC : Char := Char.ofNat 39

def isNodeStack (env : ProjectEnv) : Bool :=
  env.stack.primary = ("node".data) || env.stack.primary = ("next".data) ||
  env.stack.primary = ("react".data)

def isPhpStack (env : ProjectEnv) : Bool :=
  env.stack.primary = ("php".data) || env.stack.primary = ("laravel".data)

def pmOf (env : ProjectEnv) : Str := env.stack.packageManager.getD ("npm".data)

/-- `CommandResolver.resolveInstallCommand` -/
def resolveInstallCommand (env : ProjectEnv) (d : Bool) : ResolvedCommand :=
  if env.stack.primary = ("python".data) then
    { command := ("pip install -r requirements.txt".data),
      description := some ("Install Python dependencies".data),
      isDangerous := d, requiresConfirmation := d }
  else if env.stack.primary = ("maven".data) then
    { command := ("mvn install".data),
      description := some ("Install Maven dependencies".data),
      isDangerous := d, requiresConfirmation := d }
  else if isPhpStack env then
    { command := ("composer install".data),
      description := some ("Install Composer dependencies".data),
      isDangerous := d, requiresConfirmation := d }
  else
    { command := pmOf env ++ (" install".data),
      description := some (("Install dependencies using ".data) ++ pmOf env),
      isDangerous := d, requiresConfirmation := d }

/-- `CommandResolver.resolveBuildCommand` -/
def resolveBuildCommand (env : ProjectEnv) (d : Bool) : ResolvedCommand :=
  match (if isNodeStack env then lookupScript ("build".data) env.packageScripts
         else none) with
  | some sc =>
    { command := pmOf env ++ (" run build".data),
      description := some (("Build project using ".data) ++ pmOf env ++
        (" (script: ".data) ++ sc ++ (")".data)),
      isDangerous := d, requiresConfirmation := d }
  | none =>
    if env.stack.primary = ("maven".data) then
      { command := ("mvn package".data),
        description := some ("Build Maven project".data),
        isDangerous := d, requiresConfirmation := d }
    else if env.stack.primary = ("python".data) then
      { command := ("python -m build".data),
        description := some ("Build Python package".data),
        isDangerous := d, requiresConfirmation := d }
    else
      { command := ("npm run build".data),
        description := some ("Build project (fallback)".data),
        isDangerous := d, requiresConfirmation := d }

/-- `CommandResolver.resolveDevCommand` -/
def resolveDevCommand (env : ProjectEnv) (d : Bool) : ResolvedCommand :=
  match (if isNodeStack env then lookupScript ("dev".data) env.packageScripts
         else none) with
  | some sc =>
    { command := pmOf env ++ (" run dev".data),
      description := some (("Start development server (".data) ++ sc ++ (")".data)),
      isDangerous := d, requiresConfirmation := d }
  | none =>
  match (if isNodeStack env then lookupScript ("start".data) env.packageScripts
         else none) with
  | some sc =>
    { command := pmOf env ++ (" start".data),
      description := some (("Start application (".data) ++ sc ++ (")".data)),
      isDangerous := d, requiresConfirmation := d }
  | none =>
  match (if isNodeStack env then lookupScript ("serve".data) env.packageScripts
         else none) with
  | some sc =>
    { command := pmOf env ++ (" run serve".data),
      description := some (("Serve application (".data) ++ sc ++ (")".data)),
      isDangerous := d, requiresConfirmation := d }
  | none =>
    if env.stack.primary = ("python".data) && env.hasManagePy then
      { command := ("python manage.py runserver".data),
        description := some ("Start Django development server".data),
        isDangerous := d, requiresConfirmation := d }
    else if env.stack.primary = ("python".data) &&
        ((lookupScript ("dev".data) env.pythonScripts).isSome ||
         (lookupScript ("start".data) env.pythonScripts).isSome) then
      { command := ("poetry run ".data) ++
          (if (lookupScript ("dev".data) env.pythonScripts).isSome then ("dev".data)
           else ("start".data)),
        description := some ("Start development server".data),
        isDangerous := d, requiresConfirmation := d }
    else if isPhpStack env then
      { command := ("php artisan serve".data),
        description := some ("Start Laravel development server".data),
        isDangerous := d, requiresConfirmation := d }
    else
      { command := ("npm run dev".data),
        description := some ("Start development server (fallback)".data),
        isDangerous := d, requiresConfirmation := d }

/-- `CommandResolver.resolveTestCommand` -/
def resolveTestCommand (env : ProjectEnv) (d : Bool) : ResolvedCommand :=
  match (if isNodeStack env then lookupScript ("test".data) env.packageScripts
         else none) with
  | some sc =>
    { command := pmOf env ++ (" test".data),
      description := some (("Run tests (".data) ++ sc ++ (")".data)),
      isDangerous := d, requiresConfirmation := d }
  | none =>
    if env.stack.primary = ("maven".data) then
      { command := ("mvn test".data),
        description := some ("Run Maven tests".data),
        isDangerous := d, requiresConfirmation := d }
    else if env.stack.primary = ("python".data) then
      { command := ("pytest".data),
        description := some ("Run Python tests with pytest".data),
        isDangerous := d, requiresConfirmation := d }
    else if isPhpStack env then
      { command := ("php artisan test".data),
        description := some ("Run Laravel tests".data),
        isDangerous := d, requiresConfirmation := d }
    else
      { command := ("npm test".data),
        description := some ("Run tests (fallback)".data),
        isDangerous := d, requiresConfirmation := d }

/-- `CommandResolver.resolveScriptCommand` (may return null). -/
def resolveScriptCommand (input : Str) (env : ProjectEnv) (d : Bool) :
    Option ResolvedCommand :=
  match scriptNameArg input with
  | none => none
  | some name =>
    match (if isNodeStack env then lookupScript name env.packageScripts
           else none) with
    | some sc =>
      some { command := pmOf env ++ (" run ".data) ++ name,
             description := some (("Run ".data) ++ [squoteC] ++ name ++ [squoteC] ++
               (" script: ".data) ++ sc),
             isDangerous := d, requiresConfirmation := d }
    | none =>
      match (if isPhpStack env then lookupScript name env.composerScripts
             else none) with
      | some sc =>
        some { command := ("composer run-script ".data) ++ name,
               description := some (("Run composer script: ".data) ++ sc),
               isDangerous := d, requiresConfirmation := d }
      | none =>
        match (if env.stack.primary = ("python".data) then
                 lookupScript name env.pythonScripts
               else none) with
        | some sc =>
          some { command := ("poetry run ".data) ++ name,
                 description := some (("Run Python script: ".data) ++ sc),
                 isDangerous := d, requiresConfirmation := d }
        | none => none

/-- `CommandResolver.resolveReadFile` -/
def resolveReadFile (input : Str) (d : Bool) : ResolvedCommand :=
  let filePath := ((readFileArg input).map trimJS).getD []
  { command := ("cat ".data) ++ filePath,
    description := some (("Read file: ".data) ++ filePath),
    isDangerous := d, requiresConfirmation := d }

/-- `CommandResolver.resolveCreateFile` -/
def resolveCreateFile (input : Str) (d : Bool) : ResolvedCommand :=
  match createFileTwoArgs input with
  | some (p, c) =>
    let filePath := trimJS p
    let content := stripEdgeQuotes (trimJS c)
    { command := ("echo \"".data) ++ content ++ ("\" > ".data) ++ filePath,
      description := some (("Create file ".data) ++ filePath ++ (" with content".data)),
      isDangerous := d, requiresConfirmation := d }
  | none =>
    let filePath := ((createFileOneArg input).map trimJS).getD ("newfile.txt".data)
    { command := ("touch ".data) ++ filePath,
      description := some (("Create empty file: ".data) ++ filePath),
      isDangerous := d, requiresConfirmation := d }

/-- `CommandResolver.resolveEditFile` -/
def resolveEditFile (input : Str) (d : Bool) : ResolvedCommand :=
  match editFileThreeArgs input with
  | some (f, o, n) =>
    let filePath := trimJS f
    let oldText := stripEdgeQuotes (trimJS o)
    let newText := stripEdgeQuotes (trimJS n)
    { command := ("sed -i ".data) ++ [squoteC, squoteC, ' ', squoteC] ++ ("s/".data) ++
        oldText ++ ("/".data) ++ newText ++ ("/g".data) ++ [squoteC, ' '] ++ filePath,
      description := some (("Replace \"".data) ++ oldText ++ ("\" with \"".data) ++
        newText ++ ("\" in ".data) ++ filePath),
      isDangerous := true, requiresConfirmation := true }
  | none =>
    let filePath := ((editFileOneArg input).map trimJS).getD []
    { command := ("cat ".data) ++ filePath,
      description := some (("View ".data) ++ filePath ++
        (" for editing (use specific replace command)".data)),
      isDangerous := d, requiresConfirmation := d }

/-- `CommandResolver.resolveDeleteFile`: hard-coded
`isDangerous: true, requiresConfirmation: true` whatever flag is passed in. -/
def resolveDeleteFile (input : Str) (d : Bool) : ResolvedCommand :=
  let filePath := ((deleteFileArg input).map trimJS).getD []
  { command := ("rm ".data) ++ filePath,
    description := some (("⚠️ DELETE file: ".data) ++ filePath),
    isDangerous := true, requiresConfirmation := true }

/-- `CommandResolver.resolveDeleteFolder`: also hard-coded to require
confirmation. -/
def resolveDeleteFolder (input : Str) (d : Bool) : ResolvedCommand :=
  let folderPath := ((deleteFolderArg input).map trimJS).getD []
  { command := ("rm -rf ".data) ++ folderPath,
    description := some (("⚠️ DELETE folder recursively: ".data) ++ folderPath),
    isDangerous := true, requiresConfirmation := true }

/-- `CommandResolver.resolveMoveFile` -/
def resolveMoveFile (input : Str) (d : Bool) : ResolvedCommand :=
  match moveTwoArgs input with
  | some (src, dst) =>
    let source := trimJS src
    let dest := trimJS dst
    { command := ("mv ".data) ++ source ++ (" ".data) ++ dest,
      description := some (("Move/rename ".data) ++ source ++ (" → ".data) ++ dest),
      isDangerous := d, requiresConfirmation := d }
  | none =>
    { command := input, description := none, isDangerous := d,
      requiresConfirmation := d }

/-- `CommandResolver.resolveCopyFile` -/
def resolveCopyFile (input : Str) (d : Bool) : ResolvedCommand :=
  match copyTwoArgs input with
  | some (src, dst) =>
    let source := trimJS src
    let dest := trimJS dst
    { command := ("cp -r ".data) ++ source ++ (" ".data) ++ dest,
      description := some (("Copy ".data) ++ source ++ (" → ".data) ++ dest),
      isDangerous := d, requiresConfirmation := d }
  | none =>
    { command := input, description := none, isDangerous := d,
      requiresConfirmation := d }

/-- `CommandResolver.resolveSearchFile` -/
def resolveSearchFile (input : Str) (d : Bool) : ResolvedCommand :=
  match searchTwoArgs input with
  | some (txt, loc) =>
    let searchText := trimJS txt
    let location := trimJS loc
    { command := ("grep -r \"".data) ++ searchText ++ ("\" ".data) ++ location,
      description := some (("Search for \"".data) ++ searchText ++ ("\" in ".data) ++
        location),
      isDangerous := d, requiresConfirmation := d }
  | none =>
    match findNamedArg input with
    | some p =>
      let pat := trimJS p
      { command := ("find . -name \"".data) ++ pat ++ ("\"".data),
        description := some (("Find files matching: ".data) ++ pat),
        isDangerous := d, requiresConfirmation := d }
    | none =>
      { command := input, description := none, isDangerous := d,
        requiresConfirmation := d }

/-- `CommandResolver.resolveListFiles` -/
def resolveListFiles (input : Str) (d : Bool) : ResolvedCommand :=
  let directory := ((listFilesArg input).map trimJS).getD (".".data)
  { command := ("ls -lah ".data) ++ directory,
    description := some (("List files in: ".data) ++ directory),
    isDangerous := d, requiresConfirmation := d }

/-- `CommandResolver.resolveMkdir` -/
def resolveMkdir (input : Str) (d : Bool) : ResolvedCommand :=
  let folderPath := ((mkdirArg input).map trimJS).getD ("newfolder".data)
  { command := ("mkdir -p ".data) ++ folderPath,
    description := some (("Create folder: ".data) ++ folderPath),
    isDangerous := d, requiresConfirmation := d }

/-- `CommandResolver.resolveFileCreation` -/
def resolveFileCreation (input : Str) (d : Bool) : ResolvedCommand :=
  let filePath := ((touchArg input).map trimJS).getD ("newfile.txt".data)
  { command := ("touch ".data) ++ filePath,
    description := some (("Create file: ".data) ++ filePath),
    isDangerous := d, requiresConfirmation := d }

/-- `CommandResolver.resolveScaffoldCommand` (receives the lowercased input). -/
def resolveScaffoldCommand (input : Str) (d : Bool) : ResolvedCommand :=
  if containsSub ("next".data) input then
    { command := ("npx create-next-app@latest .".data),
      description := some ("Create Next.js project".data),
      isDangerous := d, requiresConfirmation := true }
  else if containsSub ("nest".data) input then
    { command := ("npx @nestjs/cli new .".data),
      description := some ("Create NestJS project".data),
      isDangerous := d, requiresConfirmation := true }
  else if containsSub ("react".data) input then
    { command := ("npx create-react-app .".data),
      description := some ("Create React project".data),
      isDangerous := d, requiresConfirmation := true }
  else if containsSub ("vite".data) input then
    { command := ("npm create vite@latest .".data),
      description := some ("Create Vite project".data),
      isDangerous := d, requiresConfirmation := true }
  else
    { command := input, description := none, isDangerous := d,
      requiresConfirmation := d }

/-- `CommandResolver.resolveCommand`: the prioritized intent-matcher chain, in
source order; the file-manipulation resolvers receive the raw input while the
predicates test the lowercased trimmed input. -/
def resolveCommand (env : ProjectEnv) (input : Str) : Option ResolvedCommand :=
  let lowerInput := trimJS (lowerList input)
  let isDangerous := isDangerousCommandFn input
  if isInstallIntentFn lowerInput then some (resolveInstallCommand env isDangerous)
  else if isBuildIntentFn lowerInput then some (resolveBuildCommand env isDangerous)
  else if isDevIntentFn lowerInput then some (resolveDevCommand env isDangerous)
  else if isTestIntentFn lowerInput then some (resolveTestCommand env isDangerous)
  else if isScriptIntentFn lowerInput then resolveScriptCommand lowerInput env isDangerous
  else if isReadFileIntentFn lowerInput then some (resolveReadFile input isDangerous)
  else if isCreateFileIntentFn lowerInput then some (resolveCreateFile input isDangerous)
  else if isEditFileIntentFn lowerInput then some (resolveEditFile input isDangerous)
  else if isDeleteFileIntentFn lowerInput then some (resolveDeleteFile input true)
  else if isMoveFileIntentFn lowerInput then some (resolveMoveFile input isDangerous)
  else if isCopyFileIntentFn lowerInput then some (resolveCopyFile input isDangerous)
  else if isSearchFileIntentFn lowerInput then some (resolveSearchFile input isDangerous)
  else if isListFilesIntentFn lowerInput then some (resolveListFiles input isDangerous)
  else if containsSub ("create folder".data) lowerInput ||
      containsSub ("mkdir".data) lowerInput then some (resolveMkdir input isDangerous)
  else if isDeleteFolderIntentFn lowerInput then some (resolveDeleteFolder input true)
  else if containsSub ("create file".data) lowerInput ||
      containsSub ("touch".data) lowerInput then
    some (resolveFileCreation input isDangerous)
  else if isScaffoldIntentFn lowerInput then
    some (resolveScaffoldCommand lowerInput isDangerous)
  else
    some { command := input, description := none, isDangerous := isDangerous,
           requiresConfirmation := isDangerous }

/-! ## C10 -/

/-- C10: every input the resolver treats as a destructive delete-file or
delete-folder intent yields `requiresConfirmation = true` regardless of the
risk flag computed by the classifier (both delete resolvers hard-code `true`,
ignoring the flag they are handed); in particular resolving
"delete file config.json" produces `rm config.json` with
`requiresConfirmation = true` even though that command alone does not match
the Dangerous pattern set (it is only `MODERATE`). -/
theorem c10_delete_requires_confirmation :
    (∀ (input : Str) (d : Bool), (resolveDeleteFile input d).requiresConfirmation = true) ∧
    (∀ (input : Str) (d : Bool),
      (resolveDeleteFolder input d).requiresConfirmation = true) ∧
    (∀ env : ProjectEnv,
      resolveCommand env (("delete file config.json").data) =
        some { command := ("rm config.json".data),
               description := some (("⚠️ DELETE file: config.json").data),
               isDangerous := true, requiresConfirmation := true }) ∧
    assessCommandRisk (("rm config.json").data) ≠ CommandRiskLevel.DANGEROUS ∧
    assessCommandRisk (("rm config.json").data) = CommandRiskLevel.MODERATE := by
  refine ⟨fun input d => rfl, fun input d => rfl, fun env => ?_, by decide, by decide⟩
  rfl

/-! ## ProcessSupervisor (`TerminalManager.executeInBackground` and friends)

The per-command mutable state and the event handlers registered by
`executeInBackground` are embedded as a state machine.  Each Node.js event
(`stdout`/`stderr` `data`, `exit`, `error`, the 300 s fail-safe timer, a
`stopCommand` call, the 5 s stop-escalation timer) is one step.  Observable
side effects are recorded in the state: `kills` is the ordered list of signal
names passed to `childProcess.kill` by the supervisor, `completes` the
arguments of the `notifyComplete` emissions, and `statusHistory` every value
ever assigned to `status` (ghost field used to state the claims; identity
fields such as the command text, cwd, location and risk level are immutable
and omitted). -/

inductive CommandStatus where
  | PENDING
  | RUNNING
  | COMPLETED
  | FAILED
  | STOPPED
deriving DecidableEq

inductive StreamKind where
  | stdout
  | stderr
deriving DecidableEq

structure OutputLine where
  content : Str
  type : StreamKind
  timestamp : Nat
deriving DecidableEq

structure CmdState where
  status : CommandStatus
  statusHistory : List CommandStatus
  output : List OutputLine
  exitCode : Option Int
  startTime : Nat
  endTime : Option Nat
  pid : Option Nat
  isCompleted : Bool
  inProcessMap : Bool
  stopTimerDelayMs : Option Nat
  kills : List Str
  completes : List (Int × Nat × CommandStatus)
deriving DecidableEq

def sigtermS : Str := ("SIGTERM".data)
def sigkillS : Str := ("SIGKILL".data)

def FAILSAFE_TIMEOUT_MS : Nat := 300000

/-- The synthetic line appended by the fail-safe handler:
`Error: Command timed out after ${FAILSAFE_TIMEOUT_MS / 1000}s`. -/
def timeoutLineS : Str :=
  ("Error: Command timed out after ".data) ++
  (Nat.repr (FAILSAFE_TIMEOUT_MS / 1000)).data ++ ("s".data)

/-- `addOutput`: split the chunk on newlines and drop blank lines
(`content.split('\n').filter(line => line.trim().length > 0)`). -/
def chunkLines (chunk : Str) : List Str :=
  (List.splitOn '\n' chunk).filter (fun l => !(trimJS l).isEmpty)

/-- The `for (const line of lines)` loop of `addOutput`: push one line at a
time onto the command's output. -/
def pushLines (stream : StreamKind) (t : Nat) :
    List Str → List OutputLine → List OutputLine
  | [], out => out
  | l :: ls, out => pushLines stream t ls (out ++ [⟨l, stream, t⟩])

/-- `TerminalManager.addOutput` (it looks the command up and appends; it does
NOT consult `status` or the completion flag). -/
def addOutputFn (chunk : Str) (stream : StreamKind) (t : Nat) (st : CmdState) :
    CmdState :=
  { st with output := pushLines stream t (chunkLines chunk) st.output }

/-- The `exit` event handler: guarded by `isCompleted`; computes
`exitCode = code ?? (signal ? 1 : 0)`, then classifies `STOPPED` when the
signal string is SIGTERM or SIGKILL, else `COMPLETED` on 0, else `FAILED`. -/
def handleExit (code? : Option Int) (signal : Option Str) (t : Nat) (st : CmdState) :
    CmdState :=
  if st.isCompleted then st
  else
    let ec : Int :=
      match code? with
      | some c => c
      | none => match signal with | some _ => 1 | none => 0
    let dur := t - st.startTime
    if signal = some sigtermS ∨ signal = some sigkillS then
      { st with
        isCompleted := true
        exitCode := some ec
        endTime := some t
        status := CommandStatus.STOPPED
        statusHistory := st.statusHistory ++ [CommandStatus.STOPPED]
        completes := st.completes ++ [(ec, dur, CommandStatus.STOPPED)]
        inProcessMap := false }
    else if ec = 0 then
      { st with
        isCompleted := true
        exitCode := some ec
        endTime := some t
        status := CommandStatus.COMPLETED
        statusHistory := st.statusHistory ++ [CommandStatus.COMPLETED]
        completes := st.completes ++ [(ec, dur, CommandStatus.COMPLETED)]
        inProcessMap := false }
    else
      { st with
        isCompleted := true
        exitCode := some ec
        endTime := some t
        status := CommandStatus.FAILED
        statusHistory := st.statusHistory ++ [CommandStatus.FAILED]
        completes := st.completes ++ [(ec, dur, CommandStatus.FAILED)]
        inProcessMap := false }

/-- The `error` event handler: guarded by `isCompleted`; fails the command,
appends `Error: ${error.message}` to stderr, emits completion with code 1. -/
def handleError (msg : Str) (t : Nat) (st : CmdState) : CmdState :=
  if st.isCompleted then st
  else
    let st1 :=
      { st with
        isCompleted := true
        status := CommandStatus.FAILED
        statusHistory := st.statusHistory ++ [CommandStatus.FAILED]
        endTime := some t }
    let st2 := addOutputFn (("Error: ".data) ++ msg) StreamKind.stderr t st1
    { st2 with
      completes := st2.completes ++ [((1 : Int), t - st.startTime, CommandStatus.FAILED)]
      inProcessMap := false }

/-- The fail-safe timer handler: guarded by `isCompleted`; SIGKILLs the
process, fails the command, appends the synthetic timeout line to stderr and
emits completion `(1, FAILSAFE_TIMEOUT_MS, FAILED)`.  It does not assign
`exitCode`. -/
def handleTimeout (t : Nat) (st : CmdState) : CmdState :=
  if st.isCompleted then st
  else
    let st1 :=
      { st with
        kills := st.kills ++ [sigkillS]
        status := CommandStatus.FAILED
        statusHistory := st.statusHistory ++ [CommandStatus.FAILED]
        endTime := some t }
    let st2 := addOutputFn timeoutLineS StreamKind.stderr t st1
    { st2 with
      completes := st2.completes ++ [((1 : Int), FAILSAFE_TIMEOUT_MS, CommandStatus.FAILED)]
      inProcessMap := false
      isCompleted := true }

/-- `TerminalManager.stopCommand`: returns false unless the command is
`RUNNING` and a live process is tracked; otherwise sends SIGTERM and arms the
5 s escalation timer. -/
def stopCommandFn (st : CmdState) : Bool × CmdState :=
  if st.status ≠ CommandStatus.RUNNING then (false, st)
  else if st.inProcessMap then
    (true, { st with
      kills := st.kills ++ [sigtermS]
      stopTimerDelayMs := some 5000 })
  else (false, st)

/-- The 5 s escalation timer body: SIGKILL if the process is still tracked. -/
def handleStopTimer (st : CmdState) : CmdState :=
  if st.inProcessMap then { st with kills := st.kills ++ [sigkillS] } else st

inductive Ev where
  | out (chunk : Str) (stream : StreamKind) (t : Nat)
  | exitEv (code : Option Int) (signal : Option Str) (t : Nat)
  | errEv (msg : Str) (t : Nat)
  | timeoutEv (t : Nat)
  | stopEv
  | stopTimerEv
deriving DecidableEq

def stepEv (e : Ev) (st : CmdState) : CmdState :=
  match e with
  | Ev.out chunk stream t => addOutputFn chunk stream t st
  | Ev.exitEv c sig t => handleExit c sig t st
  | Ev.errEv msg t => handleError msg t st
  | Ev.timeoutEv t => handleTimeout t st
  | Ev.stopEv => (stopCommandFn st).2
  | Ev.stopTimerEv => handleStopTimer st

def runEvs : List Ev → CmdState → CmdState
  | [], st => st
  | e :: es, st => runEvs es (stepEv e st)

/-- How `spawn` can turn out: a synchronous throw (caught by
`executeCommand`'s catch), or a `ChildProcess` handle whose `pid` is
`undefined` when the spawn failed asynchronously. -/
inductive SpawnResult where
  | threw (msg : Str)
  | ok (pid : Option Nat)

/-- The state of a freshly submitted background command.  `executeCommand`
creates it `PENDING`; on a synchronous spawn throw the catch block fails it
directly (never `RUNNING`); on a normal `spawn` return `executeInBackground`
immediately marks it `RUNNING` and records `childProcess.pid`, whatever that
is. -/
def submitBg (sr : SpawnResult) (t0 : Nat) : CmdState :=
  let base : CmdState :=
    { status := CommandStatus.PENDING
      statusHistory := [CommandStatus.PENDING]
      output := []
      exitCode := none
      startTime := t0
      endTime := none
      pid := none
      isCompleted := false
      inProcessMap := false
      stopTimerDelayMs := none
      kills := []
      completes := [] }
  match sr with
  | SpawnResult.threw _ =>
    { base with
      status := CommandStatus.FAILED
      statusHistory := [CommandStatus.PENDING, CommandStatus.FAILED]
      endTime := some t0
      completes := [((1 : Int), 0, CommandStatus.FAILED)] }
  | SpawnResult.ok pid? =>
    { base with
      status := CommandStatus.RUNNING
      statusHistory := [CommandStatus.PENDING, CommandStatus.RUNNING]
      pid := pid?
      inProcessMap := true }

def submitOk (pid? : Option Nat) (t0 : Nat) : CmdState :=
  submitBg (SpawnResult.ok pid?) t0

/-- States reachable from a successfully spawned background command. -/
inductive Reach : CmdState → Prop where
  | base (pid? : Option Nat) (t0 : Nat) : Reach (submitOk pid? t0)
  | step {st : CmdState} (e : Ev) : Reach st → Reach (stepEv e st)

def isTerminalStatus (s : CommandStatus) : Bool :=
  s = CommandStatus.COMPLETED || s = CommandStatus.FAILED || s = CommandStatus.STOPPED

def isTermEv (e : Ev) : Bool :=
  match e with
  | Ev.exitEv _ _ _ => true
  | Ev.errEv _ _ => true
  | Ev.timeoutEv _ => true
  | _ => false

def isOutEv (e : Ev) : Bool :=
  match e with
  | Ev.out _ _ _ => true
  | _ => false

def termCount (h : List CommandStatus) : Nat :=
  (h.filter isTerminalStatus).length

/-! ## Supervisor lemmas -/

theorem pushLines_eq (stream : StreamKind) (t : Nat) (ls : List Str)
    (out : List OutputLine) :
    pushLines stream t ls out = out ++ ls.map (fun l => ⟨l, stream, t⟩) := by
  induction ls generalizing out with
  | nil => simp [pushLines]
  | cons l ls ih => simp [pushLines, ih]

/-- Once the completion flag is set, no event changes the status, exit code,
history, completion list or the flag itself. -/
theorem stepEv_completed_stable (e : Ev) (st : CmdState) (h : st.isCompleted = true) :
    (stepEv e st).isCompleted = true ∧ (stepEv e st).status = st.status ∧
    (stepEv e st).exitCode = st.exitCode ∧ (stepEv e st).completes = st.completes ∧
    (stepEv e st).statusHistory = st.statusHistory := by
  cases e with
  | out chunk stream t => simp [stepEv, addOutputFn, h]
  | exitEv c sig t => simp [stepEv, handleExit, h]
  | errEv m t => simp [stepEv, handleError, h]
  | timeoutEv t => simp [stepEv, handleTimeout, h]
  | stopEv =>
    simp only [stepEv, stopCommandFn]
    split_ifs <;> simp [h]
  | stopTimerEv =>
    simp only [stepEv, handleStopTimer]
    split_ifs <;> simp [h]

theorem runEvs_completed_stable (evs : List Ev) (st : CmdState)
    (h : st.isCompleted = true) :
    (runEvs evs st).isCompleted = true ∧ (runEvs evs st).status = st.status ∧
    (runEvs evs st).exitCode = st.exitCode ∧ (runEvs evs st).completes = st.completes ∧
    (runEvs evs st).statusHistory = st.statusHistory := by
  induction evs generalizing st with
  | nil => simp [runEvs, h]
  | cons e es ih =>
    obtain ⟨h1, h2, h3, h4, h5⟩ := stepEv_completed_stable e st h
    obtain ⟨g1, g2, g3, g4, g5⟩ := ih (stepEv e st) h1
    exact ⟨g1, g2.trans h2, g3.trans h3, g4.trans h4, g5.trans h5⟩

/-- The completion flag after one step. -/
theorem stepEv_isCompleted (e : Ev) (st : CmdState) :
    (stepEv e st).isCompleted = (st.isCompleted || isTermEv e) := by
  by_cases h : st.isCompleted = true
  · obtain ⟨h1, _, _, _, _⟩ := stepEv_completed_stable e st h
    simp [h1, h]
  · have h' : st.isCompleted = false := by simpa using h
    cases e with
    | out chunk stream t => simp [stepEv, addOutputFn, h', isTermEv]
    | exitEv c sig t =>
      simp only [stepEv, handleExit, h', Bool.false_eq_true, if_false, isTermEv,
        Bool.false_or]
      split_ifs <;> rfl
    | errEv m t =>
      simp [stepEv, handleError, h', isTermEv, addOutputFn]
    | timeoutEv t =>
      simp [stepEv, handleTimeout, h', isTermEv, addOutputFn]
    | stopEv =>
      simp only [stepEv, stopCommandFn, isTermEv]
      split_ifs <;> simp [h']
    | stopTimerEv =>
      simp only [stepEv, handleStopTimer, isTermEv]
      split_ifs <;> simp [h']

theorem runEvs_isCompleted (evs : List Ev) (st : CmdState) :
    (runEvs evs st).isCompleted = (st.isCompleted || evs.any isTermEv) := by
  induction evs generalizing st with
  | nil => simp [runEvs]
  | cons e es ih =>
    simp only [runEvs, ih, stepEv_isCompleted, List.any_cons, Bool.or_assoc]

theorem termCount_append (a b : List CommandStatus) :
    termCount (a ++ b) = termCount a + termCount b := by
  simp [termCount, List.filter_append]

/-- One step preserves the completion-count invariant: the number of
`notifyComplete` emissions and of terminal entries in the status history both
equal `1` iff the completion flag is set. -/
theorem stepEv_counts (e : Ev) (st : CmdState)
    (h1 : st.completes.length = (if st.isCompleted = true then 1 else 0))
    (h2 : termCount st.statusHistory = (if st.isCompleted = true then 1 else 0)) :
    (stepEv e st).completes.length =
      (if (stepEv e st).isCompleted = true then 1 else 0) ∧
    termCount (stepEv e st).statusHistory =
      (if (stepEv e st).isCompleted = true then 1 else 0) := by
  by_cases hc : st.isCompleted = true
  · obtain ⟨g1, _, _, g4, g5⟩ := stepEv_completed_stable e st hc
    rw [g1, g4, g5]
    rw [hc] at h1 h2
    exact ⟨h1, h2⟩
  · have hc' : st.isCompleted = false := by simpa using hc
    rw [hc'] at h1 h2
    simp only [Bool.false_eq_true, if_false] at h1 h2
    cases e with
    | out chunk stream t =>
      constructor <;> simp [stepEv, addOutputFn, hc', h1, h2]
    | exitEv c sig t =>
      simp only [stepEv, handleExit, hc', Bool.false_eq_true, if_false]
      constructor
      · split <;> (try split) <;> simp [h1]
      · split <;> (try split) <;> (dsimp only; rw [termCount_append, h2]; decide)
    | errEv m t =>
      simp only [stepEv, handleError, hc', Bool.false_eq_true, if_false, addOutputFn]
      constructor
      · simp [h1]
      · dsimp only; rw [termCount_append, h2]; decide
    | timeoutEv t =>
      simp only [stepEv, handleTimeout, hc', Bool.false_eq_true, if_false, addOutputFn]
      constructor
      · simp [h1]
      · dsimp only; rw [termCount_append, h2]; decide
    | stopEv =>
      simp only [stepEv, stopCommandFn]
      split_ifs <;> simp [hc', h1, h2]
    | stopTimerEv =>
      simp only [stepEv, handleStopTimer]
      split_ifs <;> simp [hc', h1, h2]

theorem runEvs_counts (evs : List Ev) (st : CmdState)
    (h1 : st.completes.length = (if st.isCompleted = true then 1 else 0))
    (h2 : termCount st.statusHistory = (if st.isCompleted = true then 1 else 0)) :
    (runEvs evs st).completes.length =
      (if (runEvs evs st).isCompleted = true then 1 else 0) ∧
    termCount (runEvs evs st).statusHistory =
      (if (runEvs evs st).isCompleted = true then 1 else 0) := by
  induction evs generalizing st with
  | nil => exact ⟨h1, h2⟩
  | cons e es ih =>
    obtain ⟨g1, g2⟩ := stepEv_counts e st h1 h2
    exact ih (stepEv e st) g1 g2

/-- A run of pure output events touches nothing but `output`. -/
theorem runEvs_outs (evs : List Ev) (st : CmdState) (h : ∀ e ∈ evs, isOutEv e = true) :
    (runEvs evs st).isCompleted = st.isCompleted ∧
    (runEvs evs st).status = st.status ∧
    (runEvs evs st).exitCode = st.exitCode := by
  induction evs generalizing st with
  | nil => simp [runEvs]
  | cons e es ih =>
    have he : isOutEv e = true := h e (by simp)
    cases e with
    | out chunk stream t =>
      have hrest := ih (stepEv (Ev.out chunk stream t) st)
        (fun e' he' => h e' (by simp [he']))
      simp only [runEvs] at hrest ⊢
      simpa [stepEv, addOutputFn] using hrest
    | exitEv c sig t => simp [isOutEv] at he
    | errEv m t => simp [isOutEv] at he
    | timeoutEv t => simp [isOutEv] at he
    | stopEv => simp [isOutEv] at he
    | stopTimerEv => simp [isOutEv] at he

/-- Invariant of reachable states: the completion flag is set exactly when the
status is terminal, and a `RUNNING` command always has a tracked process. -/
theorem reach_inv {st : CmdState} (h : Reach st) :
    (st.isCompleted = true ↔ isTerminalStatus st.status = true) ∧
    (st.status = CommandStatus.RUNNING → st.inProcessMap = true) := by
  induction h with
  | base pid? t0 => simp [submitOk, submitBg, isTerminalStatus]
  | step e hr ih =>
    rename_i st0
    obtain ⟨ih1, ih2⟩ := ih
    by_cases hc : st0.isCompleted = true
    · obtain ⟨g1, g2, _, _, _⟩ := stepEv_completed_stable e st0 hc
      constructor
      · rw [g1, g2]
        simp [ih1.mp hc]
      · intro hrun
        rw [g2] at hrun
        have hterm : isTerminalStatus st0.status = true := ih1.mp hc
        rw [hrun] at hterm
        simp [isTerminalStatus] at hterm
    · have hc' : st0.isCompleted = false := by simpa using hc
      cases e with
      | out chunk stream t =>
        constructor
        · simpa [stepEv, addOutputFn] using ih1
        · simpa [stepEv, addOutputFn] using ih2
      | exitEv c sig t =>
        simp only [stepEv, handleExit, hc', Bool.false_eq_true, if_false]
        constructor
        · split <;> (try split) <;> simp [isTerminalStatus]
        · split <;> (try split) <;> simp
      | errEv m t =>
        simp only [stepEv, handleError, hc', Bool.false_eq_true, if_false, addOutputFn]
        simp [isTerminalStatus]
      | timeoutEv t =>
        simp only [stepEv, handleTimeout, hc', Bool.false_eq_true, if_false, addOutputFn]
        simp [isTerminalStatus]
      | stopEv =>
        simp only [stepEv, stopCommandFn]
        split_ifs <;> exact ⟨ih1, fun hr => ih2 hr⟩
      | stopTimerEv =>
        simp only [stepEv, handleStopTimer]
        split_ifs <;> exact ⟨ih1, fun hr => ih2 hr⟩

theorem runEvs_append (a b : List Ev) (st : CmdState) :
    runEvs (a ++ b) st = runEvs b (runEvs a st) := by
  induction a generalizing st with
  | nil => simp [runEvs]
  | cons e es ih => simp [runEvs, ih]

/-- Shared fact: an exit whose signal string is SIGTERM or SIGKILL is
classified `STOPPED` (whoever sent the signal). -/
theorem handleExit_signal_stopped (st : CmdState) (c : Option Int) (sig : Option Str)
    (t : Nat) (hc : st.isCompleted = false)
    (hs : sig = some sigtermS ∨ sig = some sigkillS) :
    (handleExit c sig t st).status = CommandStatus.STOPPED := by
  simp only [handleExit, hc, Bool.false_eq_true, if_false]
  rw [if_pos hs]

/-- Shared fact: a reachable non-terminal state has the completion flag
unset. -/
theorem reach_not_completed {st : CmdState} (hr : Reach st)
    (hterm : isTerminalStatus st.status = false) : st.isCompleted = false := by
  obtain ⟨inv1, _⟩ := reach_inv hr
  cases hcc : st.isCompleted
  · rfl
  · exact absurd (inv1.mp hcc) (by simp [hterm])

/-! ## C1 -/

/-- C1: when the 300 s fail-safe timer fires on a command that has not reached
a terminal state, the supervisor sends SIGKILL (hard, not graceful), appends
the synthetic timeout line to the output on the stderr stream, transitions the
status to `FAILED`, emits the completion, and sets the idempotency flag; when
the command has already completed, the timer handler is a no-op, so the
timeout handling happens at most once per command. -/
theorem c1_failsafe_timeout_kill :
    (∀ (st : CmdState) (t : Nat), Reach st → isTerminalStatus st.status = false →
      (handleTimeout t st).kills = st.kills ++ [sigkillS] ∧
      (handleTimeout t st).status = CommandStatus.FAILED ∧
      (handleTimeout t st).output = st.output ++
        [⟨timeoutLineS, StreamKind.stderr, t⟩] ∧
      (handleTimeout t st).completes = st.completes ++
        [((1 : Int), FAILSAFE_TIMEOUT_MS, CommandStatus.FAILED)] ∧
      (handleTimeout t st).isCompleted = true) ∧
    (∀ (st : CmdState) (t : Nat), st.isCompleted = true → handleTimeout t st = st) := by
  constructor
  · intro st t hr hterm
    have hc : st.isCompleted = false := reach_not_completed hr hterm
    have hch : chunkLines timeoutLineS = [timeoutLineS] := by decide
    have heq : handleTimeout t st =
        { st with
          kills := st.kills ++ [sigkillS]
          status := CommandStatus.FAILED
          statusHistory := st.statusHistory ++ [CommandStatus.FAILED]
          endTime := some t
          output := st.output ++ [⟨timeoutLineS, StreamKind.stderr, t⟩]
          completes := st.completes ++
            [((1 : Int), FAILSAFE_TIMEOUT_MS, CommandStatus.FAILED)]
          inProcessMap := false
          isCompleted := true } := by
      simp only [handleTimeout, hc, Bool.false_eq_true, if_false, addOutputFn]
      rw [hch, pushLines_eq]
      rfl
    rw [heq]
    exact ⟨rfl, rfl, rfl, rfl, rfl⟩
  · intro st t h
    simp [handleTimeout, h]

/-- C1 witness at the freshly spawned state. -/
theorem c1_failsafe_timeout_kill_wit :
    (handleTimeout 300000 (submitOk (some 7) 0)).status = CommandStatus.FAILED ∧
    (handleTimeout 300000 (submitOk (some 7) 0)).kills = [sigkillS] :=
  have h := c1_failsafe_timeout_kill.1 (submitOk (some 7) 0) 300000
    (Reach.base (some 7) 0) (by decide)
  ⟨h.2.1, by simpa using h.1⟩

/-! ## C2 -/

/-- C2: over any event sequence at most one completion is emitted and at most
one terminal transition is recorded; when at least one exit/error/timeout
event occurs, the completion is emitted exactly once; and once the
idempotency flag is set, all three terminal handlers are no-ops. -/
theorem c2_single_terminal_transition :
    (∀ (pid? : Option Nat) (t0 : Nat) (evs : List Ev),
      (runEvs evs (submitOk pid? t0)).completes.length ≤ 1 ∧
      termCount (runEvs evs (submitOk pid? t0)).statusHistory ≤ 1 ∧
      ((∃ e ∈ evs, isTermEv e = true) →
        (runEvs evs (submitOk pid? t0)).completes.length = 1)) ∧
    (∀ st : CmdState, st.isCompleted = true →
      ∀ (c : Option Int) (sig : Option Str) (t : Nat) (m : Str) (t2 t3 : Nat),
        handleExit c sig t st = st ∧ handleError m t2 st = st ∧
        handleTimeout t3 st = st) := by
  constructor
  · intro pid? t0 evs
    have hbase1 : (submitOk pid? t0).completes.length =
        (if (submitOk pid? t0).isCompleted = true then 1 else 0) := by
      simp [submitOk, submitBg]
    have hbase2 : termCount (submitOk pid? t0).statusHistory =
        (if (submitOk pid? t0).isCompleted = true then 1 else 0) := by
      simp [submitOk, submitBg, termCount, isTerminalStatus]
    obtain ⟨g1, g2⟩ := runEvs_counts evs _ hbase1 hbase2
    refine ⟨?_, ?_, ?_⟩
    · rw [g1]; split <;> simp
    · rw [g2]; split <;> simp
    · rintro ⟨e, he, hte⟩
      have hflag : (runEvs evs (submitOk pid? t0)).isCompleted = true := by
        rw [runEvs_isCompleted]
        have : evs.any isTermEv = true := List.any_eq_true.mpr ⟨e, he, hte⟩
        simp [this]
      rw [g1, hflag]
      rfl
  · intro st h c sig t m t2 t3
    exact ⟨by simp [handleExit, h], by simp [handleError, h], by simp [handleTimeout, h]⟩

/-- C2 witness: an exit followed by a (late) fail-safe firing still yields
exactly one completion. -/
theorem c2_single_terminal_transition_wit :
    (runEvs [Ev.exitEv (some 0) none 1, Ev.timeoutEv 2]
      (submitOk (some 1) 0)).completes.length = 1 :=
  (c2_single_terminal_transition.1 (some 1) 0
      [Ev.exitEv (some 0) none 1, Ev.timeoutEv 2]).2.2
    ⟨Ev.exitEv (some 0) none 1, by simp, rfl⟩

/-! ## C3 -/

/-- C3: a background command whose process exits normally (no signal) after
only output activity ends `COMPLETED` when the code is 0 and `FAILED`
otherwise, with the exit code recorded verbatim in both cases — and no later
event can change that. -/
theorem c3_exit_code_classification :
    ∀ (pid? : Option Nat) (t0 : Nat) (outs rest : List Ev) (c : Int) (t : Nat),
      (∀ e ∈ outs, isOutEv e = true) →
      (runEvs (outs ++ Ev.exitEv (some c) none t :: rest) (submitOk pid? t0)).status =
        (if c = 0 then CommandStatus.COMPLETED else CommandStatus.FAILED) ∧
      (runEvs (outs ++ Ev.exitEv (some c) none t :: rest)
        (submitOk pid? t0)).exitCode = some c := by
  intro pid? t0 outs rest c t houts
  rw [runEvs_append]
  obtain ⟨ho1, _, _⟩ := runEvs_outs outs (submitOk pid? t0) houts
  have hc1 : (runEvs outs (submitOk pid? t0)).isCompleted = false := by
    rw [ho1]; rfl
  have hmid : (stepEv (Ev.exitEv (some c) none t) (runEvs outs (submitOk pid? t0))).status =
        (if c = 0 then CommandStatus.COMPLETED else CommandStatus.FAILED) ∧
      (stepEv (Ev.exitEv (some c) none t)
        (runEvs outs (submitOk pid? t0))).exitCode = some c ∧
      (stepEv (Ev.exitEv (some c) none t)
        (runEvs outs (submitOk pid? t0))).isCompleted = true := by
    simp only [stepEv, handleExit, hc1, Bool.false_eq_true, if_false]
    rw [if_neg (by simp : ¬((none : Option Str) = some sigtermS ∨
      (none : Option Str) = some sigkillS))]
    split_ifs with hz <;> simp_all
  obtain ⟨hm1, hm2, hm3⟩ := hmid
  simp only [runEvs]
  obtain ⟨_, s2, s3, _, _⟩ := runEvs_completed_stable rest _ hm3
  exact ⟨s2.trans hm1, s3.trans hm2⟩

/-- C3 witness: exit code 0 gives `COMPLETED`, exit code 5 gives `FAILED`,
codes recorded verbatim. -/
theorem c3_exit_code_classification_wit :
    (runEvs [Ev.exitEv (some 0) none 9] (submitOk (some 4) 0)).status =
      CommandStatus.COMPLETED ∧
    (runEvs [Ev.exitEv (some 5) none 9] (submitOk (some 4) 0)).status =
      CommandStatus.FAILED ∧
    (runEvs [Ev.exitEv (some 5) none 9] (submitOk (some 4) 0)).exitCode = some 5 :=
  have h0 := c3_exit_code_classification (some 4) 0 [] [] 0 9 (by simp)
  have h5 := c3_exit_code_classification (some 4) 0 [] [] 5 9 (by simp)
  ⟨by simpa using h0.1, by simpa using h5.1, by simpa using h5.2⟩

/-! ## C4 -/

/-- C4 counterexample: the process exits with an externally delivered SIGTERM
— the supervisor has sent no signal (`kills = []`), yet the command is
classified `STOPPED`, not `FAILED` as the claim requires. -/
theorem c4_external_sigterm_cex :
    (runEvs [Ev.exitEv none (some sigtermS) 5] (submitOk (some 42) 0)).kills = [] ∧
    (runEvs [Ev.exitEv none (some sigtermS) 5] (submitOk (some 42) 0)).status =
      CommandStatus.STOPPED ∧
    CommandStatus.STOPPED ≠ CommandStatus.FAILED := by
  decide

/-- C4 (amended): the exit handler classifies by the signal name alone — any
exit whose signal is SIGTERM or SIGKILL becomes `STOPPED`, whether or not the
supervisor itself sent the signal, and an exit with any other signal (and a
null code) becomes `FAILED` with exit code recorded as 1. -/
theorem c4_signal_classification_amended :
    (∀ (st : CmdState) (c : Option Int) (sig : Option Str) (t : Nat),
      st.isCompleted = false → (sig = some sigtermS ∨ sig = some sigkillS) →
      (handleExit c sig t st).status = CommandStatus.STOPPED) ∧
    (∀ (st : CmdState) (s : Str) (t : Nat),
      st.isCompleted = false → ¬(s = sigtermS ∨ s = sigkillS) →
      (handleExit none (some s) t st).status = CommandStatus.FAILED ∧
      (handleExit none (some s) t st).exitCode = some 1) := by
  constructor
  · intro st c sig t hc hs
    exact handleExit_signal_stopped st c sig t hc hs
  · intro st s t hc hs
    simp only [handleExit, hc, Bool.false_eq_true, if_false]
    rw [if_neg (by simpa using hs)]
    split_ifs with h
    · simp at h
    · exact ⟨rfl, rfl⟩

/-- C4 amended-claim witness: an external SIGINT-style signal (neither SIGTERM
nor SIGKILL) with a null code yields `FAILED` and exit code 1. -/
theorem c4_signal_classification_amended_wit :
    (handleExit none (some ("SIGINT".data)) 3 (submitOk (some 8) 0)).status =
      CommandStatus.FAILED ∧
    (handleExit none (some ("SIGINT".data)) 3 (submitOk (some 8) 0)).exitCode = some 1 :=
  c4_signal_classification_amended.2 (submitOk (some 8) 0) (("SIGINT".data)) 3
    rfl (by decide)

/-! ## C5 -/

/-- C5 counterexample: after the terminal transition (`COMPLETED`), a late
output chunk is still appended — `addOutput` has no terminal-state guard, so
the claim that `output` is never mutated after a terminal status is false. -/
theorem c5_late_output_cex :
    (stepEv (Ev.exitEv (some 0) none 1) (submitOk (some 3) 0)).status =
      CommandStatus.COMPLETED ∧
    (stepEv (Ev.out ("late".data) StreamKind.stdout 2)
        (stepEv (Ev.exitEv (some 0) none 1) (submitOk (some 3) 0))).output ≠
      (stepEv (Ev.exitEv (some 0) none 1) (submitOk (some 3) 0)).output := by
  decide

/-- C5 (amended): once a reachable command's status is terminal, no event ever
mutates `status` or `exitCode` again; but output chunks arriving after the
terminal transition ARE still appended (`addOutput` does not consult the
status). -/
theorem c5_terminal_immutability_amended :
    (∀ (st : CmdState) (evs : List Ev), Reach st → isTerminalStatus st.status = true →
      (runEvs evs st).status = st.status ∧ (runEvs evs st).exitCode = st.exitCode) ∧
    (∀ (st : CmdState) (chunk : Str) (stream : StreamKind) (t : Nat),
      (stepEv (Ev.out chunk stream t) st).output =
        st.output ++ (chunkLines chunk).map (fun l => ⟨l, stream, t⟩)) := by
  constructor
  · intro st evs hr hterm
    have hc : st.isCompleted = true := (reach_inv hr).1.mpr hterm
    obtain ⟨_, s2, s3, _, _⟩ := runEvs_completed_stable evs st hc
    exact ⟨s2, s3⟩
  · intro st chunk stream t
    simp [stepEv, addOutputFn, pushLines_eq]

/-- C5 amended-claim witness: a stop call after completion changes neither
status nor exit code. -/
theorem c5_terminal_immutability_amended_wit :
    (runEvs [Ev.stopEv, Ev.timeoutEv 7]
        (stepEv (Ev.exitEv (some 0) none 1) (submitOk (some 3) 0))).status =
      (stepEv (Ev.exitEv (some 0) none 1) (submitOk (some 3) 0)).status ∧
    (runEvs [Ev.stopEv, Ev.timeoutEv 7]
        (stepEv (Ev.exitEv (some 0) none 1) (submitOk (some 3) 0))).exitCode =
      (stepEv (Ev.exitEv (some 0) none 1) (submitOk (some 3) 0)).exitCode :=
  c5_terminal_immutability_amended.1
    (stepEv (Ev.exitEv (some 0) none 1) (submitOk (some 3) 0))
    [Ev.stopEv, Ev.timeoutEv 7]
    (Reach.step (Ev.exitEv (some 0) none 1) (Reach.base (some 3) 0)) (by decide)

/-! ## C6 -/

/-- C6: `stop` on a reachable `RUNNING` command returns true, sends SIGTERM
first, and arms the 5 s escalation timer; if the process then exits with the
graceful (or the forced) signal while the command is still live, the command
reaches the terminal status `STOPPED`; firing the escalation timer sends
SIGKILL exactly when the process has not yet been reaped. -/
theorem c6_graceful_stop :
    ∀ st : CmdState, Reach st → st.status = CommandStatus.RUNNING →
      (stopCommandFn st).1 = true ∧
      (stopCommandFn st).2.kills = st.kills ++ [sigtermS] ∧
      (stopCommandFn st).2.stopTimerDelayMs = some 5000 ∧
      (∀ (c : Option Int) (t : Nat),
        (handleExit c (some sigtermS) t (stopCommandFn st).2).status =
          CommandStatus.STOPPED) ∧
      (∀ (c : Option Int) (t : Nat),
        (handleExit c (some sigkillS) t (stopCommandFn st).2).status =
          CommandStatus.STOPPED) ∧
      (handleStopTimer (stopCommandFn st).2).kills =
        (stopCommandFn st).2.kills ++ [sigkillS] ∧
      (∀ st2 : CmdState, st2.inProcessMap = false → handleStopTimer st2 = st2) := by
  intro st hr hrun
  have hmap : st.inProcessMap = true := (reach_inv hr).2 hrun
  have hcf : st.isCompleted = false :=
    reach_not_completed hr (by rw [hrun]; rfl)
  have hstop : stopCommandFn st =
      (true, { st with
        kills := st.kills ++ [sigtermS]
        stopTimerDelayMs := some 5000 }) := by
    simp only [stopCommandFn]
    rw [if_neg (by simp [hrun]), if_pos hmap]
  rw [hstop]
  refine ⟨rfl, rfl, rfl, ?_, ?_, ?_, ?_⟩
  · intro c t
    exact handleExit_signal_stopped _ c _ t hcf (Or.inl rfl)
  · intro c t
    exact handleExit_signal_stopped _ c _ t hcf (Or.inr rfl)
  · simp only [handleStopTimer]
    rw [if_pos (show ({ st with
      kills := st.kills ++ [sigtermS]
      stopTimerDelayMs := some 5000 } : CmdState).inProcessMap = true from hmap)]
  · intro st2 h2
    simp [handleStopTimer, h2]

/-- C6 witness at the freshly spawned state. -/
theorem c6_graceful_stop_wit :
    (stopCommandFn (submitOk (some 2) 0)).1 = true ∧
    (stopCommandFn (submitOk (some 2) 0)).2.kills = [sigtermS] ∧
    (stopCommandFn (submitOk (some 2) 0)).2.stopTimerDelayMs = some 5000 ∧
    (handleExit none (some sigtermS) 3 (stopCommandFn (submitOk (some 2) 0)).2).status =
      CommandStatus.STOPPED :=
  have h := c6_graceful_stop (submitOk (some 2) 0) (Reach.base (some 2) 0) rfl
  ⟨h.1, by simpa using h.2.1, h.2.2.1, h.2.2.2.1 none 3⟩

/-! ## C7 -/

/-- C7 counterexample: an asynchronous spawn failure (ENOENT) — `spawn`
returns a handle with no pid, the command is immediately marked `RUNNING`
with `pid = none`, and only the later `error` event fails it, so the status
history is `PENDING, RUNNING, FAILED`: the command did enter `RUNNING`, and
it did so without a known pid, contrary to the claim. -/
theorem c7_spawn_error_cex :
    (submitOk none 0).status = CommandStatus.RUNNING ∧
    (submitOk none 0).pid = none ∧
    (stepEv (Ev.errEv ("spawn /bin/sh ENOENT".data) 3) (submitOk none 0)).status =
      CommandStatus.FAILED ∧
    (stepEv (Ev.errEv ("spawn /bin/sh ENOENT".data) 3) (submitOk none 0)).statusHistory =
      [CommandStatus.PENDING, CommandStatus.RUNNING, CommandStatus.FAILED] := by
  decide

/-- C7 (amended): a synchronous spawn throw transitions `PENDING → FAILED`
without ever entering `RUNNING`; but after `spawn` returns a handle the
command is marked `RUNNING` immediately — even when the pid is unknown
because the spawn failed asynchronously — and the subsequent `error` event
then drives `RUNNING → FAILED`. -/
theorem c7_spawn_transitions_amended :
    (∀ (m : Str) (t0 : Nat),
      (submitBg (SpawnResult.threw m) t0).status = CommandStatus.FAILED ∧
      CommandStatus.RUNNING ∉ (submitBg (SpawnResult.threw m) t0).statusHistory ∧
      (submitBg (SpawnResult.threw m) t0).completes =
        [((1 : Int), 0, CommandStatus.FAILED)]) ∧
    (∀ (pid? : Option Nat) (t0 : Nat),
      (submitOk pid? t0).status = CommandStatus.RUNNING ∧
      (submitOk pid? t0).pid = pid?) ∧
    (∀ (pid? : Option Nat) (t0 : Nat) (m : Str) (t : Nat),
      (stepEv (Ev.errEv m t) (submitOk pid? t0)).status = CommandStatus.FAILED ∧
      (stepEv (Ev.errEv m t) (submitOk pid? t0)).statusHistory =
        [CommandStatus.PENDING, CommandStatus.RUNNING, CommandStatus.FAILED]) := by
  refine ⟨fun m t0 => ⟨rfl, by simp [submitBg], rfl⟩, fun pid? t0 => ⟨rfl, rfl⟩,
    fun pid? t0 m t => ?_⟩
  simp only [stepEv, handleError, addOutputFn]
  exact ⟨rfl, rfl⟩

/-! ## C8 -/

/-- C8: every delivered chunk is split on newlines, whitespace-only lines are
dropped, and the surviving lines are appended to the command's output in
order, each tagged with its stream and the arrival timestamp; in particular a
stdout chunk `"a\nb\n"` yields exactly the two ordered stdout lines `a`, `b`,
and a blank-only chunk appends nothing. -/
theorem c8_output_line_splitting :
    (∀ (st : CmdState) (chunk : Str) (stream : StreamKind) (t : Nat),
      (addOutputFn chunk stream t st).output =
        st.output ++ (chunkLines chunk).map (fun l => ⟨l, stream, t⟩)) ∧
    (∀ (st : CmdState) (t : Nat),
      (addOutputFn ("a\nb\n".data) StreamKind.stdout t st).output =
        st.output ++ [⟨("a".data), StreamKind.stdout, t⟩,
          ⟨("b".data), StreamKind.stdout, t⟩]) ∧
    (∀ (st : CmdState) (stream : StreamKind) (t : Nat),
      (addOutputFn (" \t\n \n".data) stream t st).output = st.output) := by
  have hg : ∀ (st : CmdState) (chunk : Str) (stream : StreamKind) (t : Nat),
      (addOutputFn chunk stream t st).output =
        st.output ++ (chunkLines chunk).map (fun l => ⟨l, stream, t⟩) := by
    intro st chunk stream t
    simp [addOutputFn, pushLines_eq]
  refine ⟨hg, fun st t => ?_, fun st stream t => ?_⟩
  · rw [hg]
    rfl
  · rw [hg]
    have : chunkLines (" \t\n \n".data) = [] := by decide
    rw [this]
    simp
